import Mathlib

/-!
Verification of the Pomodoro timer engine of `tomato-clock-25-5`
(`tomato_clock/core.py` and `tomato_clock/config.py`), as a shallow
embedding.  Wall-clock instants are modelled as rationals; Python `int()`
truncation toward zero is modelled by `pyInt`.  The asynchronous control
surface (pause / resume / stop / skip, including the SIGINT handler which
just sets `is_running = False`) is modelled by a `Control` action that the
environment may apply at the top of each polling-loop iteration; the
environment is a list of `Step`s (one wall-clock reading plus one optional
control action per iteration), so that loop recursion is structural on the
environment list and a run that would not terminate is `none`.
-/

namespace TomatoClock

/-- Python `int(x)` on a real value: truncation toward zero. -/
def pyInt (q : ℚ) : ℤ :=
  if 0 ≤ q then Int.floor q else Int.ceil q

/-- `Phase` enum of `core.py`: WORK or REST. -/
inductive Phase where
  | WORK
  | REST
deriving DecidableEq

/-- The `TimerState` dataclass of `core.py` (the `progress`,
`minutes_remaining`, `seconds_remaining` properties are derived views,
defined separately). -/
structure TimerState where
  phase : Phase
  cycle : ℤ
  remaining_seconds : ℤ
  total_seconds : ℤ
  is_running : Bool := true
  is_paused : Bool := false
  start_time : ℚ := 0
deriving DecidableEq

/-- `TimerState.progress`: `(total - remaining) / total` clamped to `[0,1]`,
`1.0` when `total_seconds ≤ 0`. -/
def TimerState.progress (s : TimerState) : ℚ :=
  if s.total_seconds ≤ 0 then 1
  else min 1 (max 0 (((s.total_seconds : ℚ) - (s.remaining_seconds : ℚ)) / (s.total_seconds : ℚ)))

/-- The `PomodoroConfig` dataclass of `config.py` (floats as rationals,
`cycles=None` meaning unbounded). -/
structure PomodoroConfig where
  work_minutes : ℚ := 25
  rest_minutes : ℚ := 5
  cycles : Option ℤ := none
  use_ascii : Bool := false
  use_color : Bool := false
  tick : ℚ := 1
  enable_notifications : Bool := false
  enable_beep : Bool := false
  pre_rest_warning : ℤ := 30
  alpha : ℚ := 95/100
  scale : ℚ := 1
  enable_balloon : Bool := false
deriving DecidableEq

/-- `PomodoroConfig.validate` (`config.py` lines 36–49): raises on
non-positive durations, clamps `tick` below `0.05` to `0.05`, then checks
`alpha`, `scale`, `pre_rest_warning`.  `__post_init__` calls this at
construction time, so an `error` result means construction itself fails
before any timer exists. -/
def validate (c : PomodoroConfig) : Except String PomodoroConfig :=
  if c.work_minutes ≤ 0 then Except.error "工作时长必须为正数"
  else if c.rest_minutes ≤ 0 then Except.error "休息时长必须为正数"
  else
    let c := if c.tick < 5/100 then { c with tick := 5/100 } else c
    if ¬(0 ≤ c.alpha ∧ c.alpha ≤ 1) then Except.error "透明度必须在0-1之间"
    else if c.scale ≤ 0 then Except.error "缩放比例必须为正数"
    else if c.pre_rest_warning < 0 then Except.error "提前提醒时间不能为负数"
    else Except.ok c

/-- `PomodoroTimer.pause` applied to an existing state: `is_paused := True`. -/
def pauseState (s : TimerState) : TimerState :=
  { s with is_paused := true }

/-- `PomodoroTimer.resume` applied to an existing state (`core.py` 196–201):
only acts when paused; recomputes `start_time = now - (total_seconds -
remaining_seconds)` and clears `is_paused`. -/
def resumeState (s : TimerState) (now : ℚ) : TimerState :=
  if s.is_paused then
    { s with
      start_time := now - ((s.total_seconds : ℚ) - (s.remaining_seconds : ℚ)),
      is_paused := false }
  else s

/-- `PomodoroTimer.stop` applied to an existing state: `is_running := False`.
The SIGINT/SIGTERM handler does the same. -/
def stopState (s : TimerState) : TimerState :=
  { s with is_running := false }

/-- `PomodoroTimer.skip_phase` applied to an existing state:
`remaining_seconds := 0`. -/
def skipState (s : TimerState) : TimerState :=
  { s with remaining_seconds := 0 }

/-- The recomputation of `remaining_seconds` in the countdown loop
(`core.py` 154–156): `max(0, total_seconds - int(now - start_time))`. -/
def pollRemaining (s : TimerState) (now : ℚ) : ℤ :=
  max 0 (s.total_seconds - pyInt (now - s.start_time))

/-- One poll step of the countdown loop body (`core.py` 152–156): when not
paused, recompute `remaining_seconds` from elapsed wall-clock time; when
paused, the body does nothing to the state. -/
def pollStep (s : TimerState) (now : ℚ) : TimerState :=
  if s.is_paused then s
  else { s with remaining_seconds := pollRemaining s now }

/- ### Basic facts about `pyInt` -/

theorem pyInt_intCast (n : ℤ) : pyInt (n : ℚ) = n := by
  unfold pyInt
  split <;> simp

theorem pyInt_eq_floor {q : ℚ} (h : 0 ≤ q) : pyInt q = Int.floor q := by
  unfold pyInt
  simp [h]

theorem pyInt_nonneg {q : ℚ} (h : 0 ≤ q) : 0 ≤ pyInt q := by
  rw [pyInt_eq_floor h]
  exact Int.floor_nonneg.mpr h

theorem pollStep_paused (s : TimerState) (now : ℚ) (h : s.is_paused = true) :
    pollStep s now = s := by
  simp [pollStep, h]

theorem pollStep_not_paused (s : TimerState) (now : ℚ) (h : s.is_paused = false) :
    pollStep s now = { s with remaining_seconds := pollRemaining s now } := by
  simp [pollStep, h]

theorem resumeState_paused (s : TimerState) (now : ℚ) (h : s.is_paused = true) :
    resumeState s now =
      { s with
        start_time := now - ((s.total_seconds : ℚ) - (s.remaining_seconds : ℚ)),
        is_paused := false } := by
  simp [resumeState, h]

/- ### C1, C2: pause/resume and poll arithmetic -/

/-- C1.  Pause/resume round-trip preserves remaining time: for every state
with `is_paused = true` and `remaining_seconds = R` (with `0 ≤ R`, the
`TimerState` invariant), resuming at wall-clock time `now` clears
`is_paused`, sets `start_time = now - (total_seconds - remaining_seconds)`,
and an immediately following poll at the same instant `now` recomputes
`remaining_seconds = R`: no wall-clock time spent paused leaks into
`remaining_seconds`. -/
theorem pause_resume_roundtrip (s : TimerState) (now : ℚ)
    (hp : s.is_paused = true) (hR : 0 ≤ s.remaining_seconds) :
    (resumeState s now).is_paused = false ∧
    (resumeState s now).start_time
      = now - ((s.total_seconds : ℚ) - (s.remaining_seconds : ℚ)) ∧
    (pollStep (resumeState s now) now).remaining_seconds = s.remaining_seconds := by
  rw [resumeState_paused s now hp]
  refine ⟨rfl, rfl, ?_⟩
  rw [pollStep_not_paused _ _ rfl]
  show max 0 (s.total_seconds -
      pyInt (now - (now - ((s.total_seconds : ℚ) - (s.remaining_seconds : ℚ))))) =
    s.remaining_seconds
  have harg : (now - (now - ((s.total_seconds : ℚ) - (s.remaining_seconds : ℚ))))
      = ((s.total_seconds - s.remaining_seconds : ℤ) : ℚ) := by
    push_cast
    ring
  rw [harg, pyInt_intCast]
  omega

/-- Witness for C1 at a concrete paused state. -/
theorem pause_resume_roundtrip_witness :
    let s : TimerState :=
      { phase := Phase.WORK, cycle := 1, remaining_seconds := 7,
        total_seconds := 10, is_running := true, is_paused := true,
        start_time := 2 }
    (resumeState s 100).is_paused = false ∧
    (resumeState s 100).start_time
      = 100 - (((10 : ℤ) : ℚ) - ((7 : ℤ) : ℚ)) ∧
    (pollStep (resumeState s 100) 100).remaining_seconds = 7 :=
  pause_resume_roundtrip _ 100 rfl (by decide)

/-- C2.  Poll postcondition: when not paused and `now ≥ start_time` (and
`total_seconds ≥ 0`, the `TimerState` invariant), one poll step sets
`remaining_seconds = max 0 (total_seconds - ⌊now - start_time⌋)`, which is
never negative and never exceeds `total_seconds`; when paused, a poll step
leaves the state unchanged. -/
theorem poll_postcondition (s : TimerState) (now : ℚ) :
    (s.is_paused = false → s.start_time ≤ now → 0 ≤ s.total_seconds →
      (pollStep s now).remaining_seconds
        = max 0 (s.total_seconds - Int.floor (now - s.start_time)) ∧
      0 ≤ (pollStep s now).remaining_seconds ∧
      (pollStep s now).remaining_seconds ≤ s.total_seconds) ∧
    (s.is_paused = true → pollStep s now = s) := by
  constructor
  · intro hp hle htot
    have helapsed : (0 : ℚ) ≤ now - s.start_time := by linarith
    have hfl := pyInt_eq_floor helapsed
    have hnn := pyInt_nonneg helapsed
    rw [pollStep_not_paused s now hp]
    show max 0 (s.total_seconds - pyInt (now - s.start_time))
        = max 0 (s.total_seconds - Int.floor (now - s.start_time)) ∧
      0 ≤ max 0 (s.total_seconds - pyInt (now - s.start_time)) ∧
      max 0 (s.total_seconds - pyInt (now - s.start_time)) ≤ s.total_seconds
    refine ⟨by rw [hfl], ?_, ?_⟩ <;> omega
  · intro hp
    exact pollStep_paused s now hp

/-- Witness for C2 at a concrete state, both paused and unpaused. -/
theorem poll_postcondition_witness :
    let s : TimerState :=
      { phase := Phase.REST, cycle := 1, remaining_seconds := 10,
        total_seconds := 10, is_running := true, is_paused := false,
        start_time := 5 }
    let p : TimerState := { s with is_paused := true }
    ((pollStep s (17/2)).remaining_seconds
        = max 0 ((10 : ℤ) - Int.floor ((17/2 : ℚ) - 5)) ∧
      0 ≤ (pollStep s (17/2)).remaining_seconds ∧
      (pollStep s (17/2)).remaining_seconds ≤ 10) ∧
    pollStep p 9 = p := by
  refine ⟨(poll_postcondition _ (17/2)).1 rfl (by norm_num) (by decide),
          (poll_postcondition _ 9).2 rfl⟩

/- ### The engine run: `_run_phase` and `start` as trace-producing functions -/

/-- The five named events dispatched through `_trigger_callbacks`
(`phase_start`/`phase_end` carry the phase and cycle of the run that fired
them). -/
inductive Event where
  | phase_start (phase : Phase) (cycle : ℤ)
  | tick
  | pre_rest_warning
  | phase_end (phase : Phase) (cycle : ℤ)
  | timer_complete
deriving DecidableEq

/-- An asynchronous control action that another thread (or the signal
handler, for `cstop`) may apply to the shared state between loop
iterations: nothing, `pause()`, `resume()`, `stop()` (also SIGINT/SIGTERM),
or `skip_phase()`. -/
inductive Control where
  | cnone
  | cpause
  | cresume
  | cstop
  | cskip
deriving DecidableEq

/-- One step of the environment: the wall-clock reading `time.time()` for
this loop iteration, and the control action (if any) applied to the shared
state just before the iteration. -/
structure Step where
  time : ℚ
  ctl : Control
deriving DecidableEq

/-- Apply a `Step`'s control action to the shared state, exactly as
`pause`/`resume`/`stop`/`skip_phase` mutate `self._state` (`core.py`
189–211); `resume` reads the current wall clock. -/
def applyControl (st : Step) (s : TimerState) : TimerState :=
  match st.ctl with
  | Control.cnone => s
  | Control.cpause => pauseState s
  | Control.cresume => resumeState s st.time
  | Control.cstop => stopState s
  | Control.cskip => skipState s

/-- The main countdown loop of `_run_phase` (`core.py` 148–174):
`while remaining_seconds > 0 and is_running:` — if not paused, recompute
`remaining_seconds` from the wall clock, fire `pre_rest_warning` once when
a REST phase first reaches the warning window, fire `tick` when a full
tick interval elapsed since the last tick; then sleep.  Each iteration
consumes one environment `Step` (its control action is applied first,
modelling the asynchronous control surface); an environment too short to
reach loop exit yields `none` (the run has not terminated).  Returns the
events fired, the final state, and the unconsumed environment. -/
def runLoop (cfg : PomodoroConfig) (ph : Phase) :
    List Step → TimerState → Bool → ℚ → Option (List Event × TimerState × List Step)
  | [], _, _, _ => none
  | st :: rest, s, sent, lastTick =>
    let s1 := applyControl st s
    if s1.remaining_seconds > 0 ∧ s1.is_running then
      if s1.is_paused then
        runLoop cfg ph rest s1 sent lastTick
      else
        let now := st.time
        let s2 := pollStep s1 now
        let fireWarn : Bool := decide ((ph = Phase.REST) ∧ sent = false ∧
          s2.remaining_seconds ≤ cfg.pre_rest_warning ∧ s2.remaining_seconds > 0)
        let evs1 : List Event := if fireWarn then [Event.pre_rest_warning] else []
        let sent2 : Bool := sent || fireWarn
        let fireTick : Bool := decide (now - lastTick ≥ cfg.tick)
        let evs2 : List Event := if fireTick then [Event.tick] else []
        let lt2 : ℚ := if fireTick then now else lastTick
        match runLoop cfg ph rest s2 sent2 lt2 with
        | none => none
        | some (tr, sf, er) => some (evs1 ++ evs2 ++ tr, sf, er)
    else
      some ([], s1, rest)

/-- The configured duration of a phase in seconds:
`int(duration_minutes * 60)` (`core.py` 122–123). -/
def totalSeconds (cfg : PomodoroConfig) (ph : Phase) : ℤ :=
  pyInt ((if ph = Phase.WORK then cfg.work_minutes else cfg.rest_minutes) * 60)

/-- `PomodoroTimer._run_phase` (`core.py` 120–187): build a fresh
`TimerState`, fire `phase_start`; if `total_seconds ≤ 2` sleep the whole
duration (during which one control action may land), set
`remaining_seconds = 0` and fire `phase_end` unconditionally; otherwise run
the countdown loop and fire `phase_end` only when the loop exited with
`is_running` still true.  Returns the events fired, the value returned to
`start` (`self._state.is_running`), and the unconsumed environment.  The
first environment step supplies the `time.time()` of state creation. -/
def runPhase (cfg : PomodoroConfig) (ph : Phase) (cycle : ℤ) (env : List Step) :
    Option (List Event × Bool × List Step) :=
  match env with
  | [] => none
  | s0 :: env1 =>
    let total := totalSeconds cfg ph
    let s : TimerState :=
      { phase := ph, cycle := cycle, remaining_seconds := total,
        total_seconds := total, start_time := s0.time }
    if total ≤ 2 then
      match env1 with
      | [] => none
      | s1 :: env2 =>
        let s2 := { applyControl s1 s with remaining_seconds := 0 }
        some ([Event.phase_start ph cycle, Event.phase_end ph cycle],
              s2.is_running, env2)
    else
      match runLoop cfg ph env1 s false s0.time with
      | none => none
      | some (evs, sf, er) =>
        some (Event.phase_start ph cycle ::
                (evs ++ if sf.is_running then [Event.phase_end ph cycle] else []),
              sf.is_running, er)

/-- Python truthiness test `if self.config.cycles and cycle >= self.config.cycles`
(`core.py` 106): `None` and `0` are falsy. -/
def cyclesReached (cfg : PomodoroConfig) (cycle : ℤ) : Bool :=
  match cfg.cycles with
  | none => false
  | some n => decide (n ≠ 0 ∧ cycle ≥ n)

/-- The `while True` loop of `PomodoroTimer.start` (`core.py` 100–113):
run WORK; stop if interrupted; stop if the cycle limit is reached (no
trailing REST); run REST; stop if interrupted; increment `cycle`.  `fuel`
bounds the number of loop iterations (a run needing more is `none`). -/
def startLoop (cfg : PomodoroConfig) :
    ℕ → ℤ → List Step → Option (List Event × List Step)
  | 0, _, _ => none
  | Nat.succ n, cycle, env =>
    match runPhase cfg Phase.WORK cycle env with
    | none => none
    | some (tr1, ok1, env1) =>
      if ok1 = false then some (tr1, env1)
      else if cyclesReached cfg cycle then some (tr1, env1)
      else
        match runPhase cfg Phase.REST cycle env1 with
        | none => none
        | some (tr2, ok2, env2) =>
          if ok2 = false then some (tr1 ++ tr2, env2)
          else
            match startLoop cfg n (cycle + 1) env2 with
            | none => none
            | some (tr3, env3) => some (tr1 ++ tr2 ++ tr3, env3)

/-- `PomodoroTimer.start` (`core.py` 95–118): run the cycle loop starting
at `cycle = 1`; whether it ends by exhausting the cycle limit or by an
external stop/interrupt, the `finally` block fires `timer_complete` once
at the very end. -/
def start (cfg : PomodoroConfig) (fuel : ℕ) (env : List Step) :
    Option (List Event) :=
  match startLoop cfg fuel 1 env with
  | none => none
  | some (tr, _) => some (tr ++ [Event.timer_complete])

/- ### Timer-level control surface (`self._state` may be `None`) -/

/-- `PomodoroTimer.pause` (`core.py` 189–192): no-op when `_state is None`. -/
def pauseTimer : Option TimerState → Option TimerState
  | none => none
  | some s => some (pauseState s)

/-- `PomodoroTimer.resume` (`core.py` 194–201): no-op when `_state is None`
or not paused. -/
def resumeTimer (now : ℚ) : Option TimerState → Option TimerState
  | none => none
  | some s => some (resumeState s now)

/-- `PomodoroTimer.stop` (`core.py` 203–206): no-op when `_state is None`. -/
def stopTimer : Option TimerState → Option TimerState
  | none => none
  | some s => some (stopState s)

/-- `PomodoroTimer.skip_phase` (`core.py` 208–211): no-op when `_state is None`. -/
def skipTimer : Option TimerState → Option TimerState
  | none => none
  | some s => some (skipState s)

/-- `PomodoroTimer.is_running` (`core.py` 218–221):
`self._state is not None and self._state.is_running`. -/
def isRunningTimer : Option TimerState → Bool
  | none => false
  | some s => s.is_running

/- ### Event dispatcher: callbacks and the registry -/

/-- A registered callback: receives the current `TimerState` and either
returns normally or raises (modelled by `Except.error` with the message). -/
def Callback : Type :=
  TimerState → Except String Unit

/-- One `try: callback(state) except Exception as e: logger.error(...)`
iteration of `_trigger_callbacks` (`core.py` 89–93): a raising callback is
caught and its message logged (`some e`); a normal return logs nothing. -/
def invokeOne (cb : Callback) (s : TimerState) : Option String :=
  match cb s with
  | Except.ok _ => none
  | Except.error e => some e

/-- The `for callback in self._callbacks[event]` loop of
`_trigger_callbacks` (`core.py` 86–93): invoke every callback in
registration order, isolating each one with catch-and-log; returns the
per-callback log entries.  Its total return type records that the dispatch
itself never propagates an exception. -/
def triggerCallbacks : List Callback → TimerState → List (Option String)
  | [], _ => []
  | cb :: rest, s => invokeOne cb s :: triggerCallbacks rest s

/-- The `self._callbacks` dict built in `__init__` (`core.py` 59–65): its
key set is fixed to exactly the five event names. -/
structure CallbackRegistry where
  tick : List Callback := []
  phase_start : List Callback := []
  phase_end : List Callback := []
  timer_complete : List Callback := []
  pre_rest_warning : List Callback := []

/-- The five recognised event names (the keys of `self._callbacks`). -/
def validEvents : List String :=
  ["tick", "phase_start", "phase_end", "timer_complete", "pre_rest_warning"]

/-- `PomodoroTimer.add_callback` (`core.py` 79–84): if `event` is a key of
`self._callbacks`, append the callback to that event's list; otherwise
raise `ValueError(f"Unknown event: {event}")`. -/
def addCallback (r : CallbackRegistry) (event : String) (cb : Callback) :
    Except String CallbackRegistry :=
  if event = "tick" then Except.ok { r with tick := r.tick ++ [cb] }
  else if event = "phase_start" then
    Except.ok { r with phase_start := r.phase_start ++ [cb] }
  else if event = "phase_end" then
    Except.ok { r with phase_end := r.phase_end ++ [cb] }
  else if event = "timer_complete" then
    Except.ok { r with timer_complete := r.timer_complete ++ [cb] }
  else if event = "pre_rest_warning" then
    Except.ok { r with pre_rest_warning := r.pre_rest_warning ++ [cb] }
  else Except.error ("Unknown event: " ++ event)

/- ### C6, C7, C8, C9, C10 -/

/-- C6.  `skip_phase()` sets `remaining_seconds` to 0 immediately (both on
the state and through the timer-level guard), and the next iteration of
the countdown loop observes completion: whatever the configured duration,
the elapsed wall-clock time, the pause flag, and the rest of the
environment, the loop exits at once with no further events, ending the
phase-run. -/
theorem skip_forces_completion (s : TimerState) (cfg : PomodoroConfig)
    (ph : Phase) (st : Step) (rest : List Step) (sent : Bool) (lt : ℚ)
    (h : st.ctl = Control.cskip) :
    (skipState s).remaining_seconds = 0 ∧
    skipTimer (some s) = some (skipState s) ∧
    runLoop cfg ph (st :: rest) s sent lt = some ([], skipState s, rest) := by
  refine ⟨rfl, rfl, ?_⟩
  have hac : applyControl st s = skipState s := by
    unfold applyControl
    rw [h]
  simp [runLoop, hac, skipState]

/-- Witness for C6 at a concrete mid-phase state. -/
theorem skip_forces_completion_witness :
    let s : TimerState :=
      { phase := Phase.WORK, cycle := 1, remaining_seconds := 5,
        total_seconds := 10, start_time := 0 }
    (skipState s).remaining_seconds = 0 ∧
    skipTimer (some s) = some (skipState s) ∧
    runLoop {} Phase.WORK [⟨3, Control.cskip⟩] s false 0
      = some ([], skipState s, []) :=
  skip_forces_completion _ {} Phase.WORK ⟨3, Control.cskip⟩ [] false 0 rfl

/-- C7.  Callback fault isolation: the dispatch loop of
`_trigger_callbacks` is a total function (it never propagates an
exception), it produces exactly one log slot per registered callback, and
the `i`-th slot is exactly the caught outcome of the `i`-th registered
callback applied to the state — so a raising callback is caught and
logged (`invokeOne` maps `error e` to the log entry `some e`) and every
remaining callback is still invoked in registration order. -/
theorem callback_fault_isolation (cbs : List Callback) (s : TimerState) :
    (triggerCallbacks cbs s).length = cbs.length ∧
    ∀ i : ℕ, (triggerCallbacks cbs s)[i]?
      = (cbs[i]?).map (fun cb => invokeOne cb s) := by
  induction cbs with
  | nil => exact ⟨rfl, fun i => by simp [triggerCallbacks]⟩
  | cons cb rest ih =>
    refine ⟨by simp [triggerCallbacks, ih.1], ?_⟩
    intro i
    cases i with
    | zero => simp [triggerCallbacks]
    | succ n => simp [triggerCallbacks, ih.2 n]

/-- C8.  `add_callback` succeeds exactly for the five recognised event
names, appending the callback to that event's list; any other name yields
the `ValueError` with message `"Unknown event: <event>"` (and, the model
being pure, no registry results from the failing call). -/
theorem add_callback_contract (r : CallbackRegistry) (event : String) (cb : Callback) :
    ((∃ r2, addCallback r event cb = Except.ok r2) ↔ event ∈ validEvents) ∧
    addCallback r "tick" cb = Except.ok { r with tick := r.tick ++ [cb] } ∧
    addCallback r "phase_start" cb
      = Except.ok { r with phase_start := r.phase_start ++ [cb] } ∧
    addCallback r "phase_end" cb
      = Except.ok { r with phase_end := r.phase_end ++ [cb] } ∧
    addCallback r "timer_complete" cb
      = Except.ok { r with timer_complete := r.timer_complete ++ [cb] } ∧
    addCallback r "pre_rest_warning" cb
      = Except.ok { r with pre_rest_warning := r.pre_rest_warning ++ [cb] } ∧
    (event ∉ validEvents →
      addCallback r event cb = Except.error ("Unknown event: " ++ event)) := by
  have hmem : event ∈ validEvents ↔
      (event = "tick" ∨ event = "phase_start" ∨ event = "phase_end" ∨
        event = "timer_complete" ∨ event = "pre_rest_warning") := by
    simp [validEvents]
  have herr : event ∉ validEvents →
      addCallback r event cb = Except.error ("Unknown event: " ++ event) := by
    intro hne
    rw [hmem] at hne
    push_neg at hne
    obtain ⟨h1, h2, h3, h4, h5⟩ := hne
    simp [addCallback, h1, h2, h3, h4, h5]
  have hok : event ∈ validEvents → ∃ r2, addCallback r event cb = Except.ok r2 := by
    intro hm
    rw [hmem] at hm
    rcases hm with h | h | h | h | h <;> subst h
    · exact ⟨{ r with tick := r.tick ++ [cb] }, by simp [addCallback]⟩
    · exact ⟨{ r with phase_start := r.phase_start ++ [cb] }, by simp [addCallback]⟩
    · exact ⟨{ r with phase_end := r.phase_end ++ [cb] }, by simp [addCallback]⟩
    · exact ⟨{ r with timer_complete := r.timer_complete ++ [cb] },
        by simp [addCallback]⟩
    · exact ⟨{ r with pre_rest_warning := r.pre_rest_warning ++ [cb] },
        by simp [addCallback]⟩
  refine ⟨⟨?_, hok⟩, by simp [addCallback], by simp [addCallback],
    by simp [addCallback], by simp [addCallback], by simp [addCallback], herr⟩
  intro hex
  by_contra hnm
  rw [herr hnm] at hex
  obtain ⟨r2, hr2⟩ := hex
  cases hr2

/-- Witness for C8: registering against an unrecognised name fails with
the invalid-argument error. -/
theorem add_callback_contract_witness :
    addCallback {} "bogus" (fun _ => Except.ok ())
      = Except.error ("Unknown event: " ++ "bogus") :=
  (add_callback_contract {} "bogus" (fun _ => Except.ok ())).2.2.2.2.2.2
    (by decide)

/-- C9.  Configuration fail-fast: `validate` (called by `__post_init__`,
i.e. at construction time, before any phase-run or event) rejects
`work_minutes ≤ 0` or `rest_minutes ≤ 0` with an error, while a tick
interval below the `0.05` floor is clamped to the floor rather than
rejected (provided the remaining fields are in range). -/
theorem config_fail_fast (c : PomodoroConfig) :
    ((c.work_minutes ≤ 0 ∨ c.rest_minutes ≤ 0) →
      ∃ msg, validate c = Except.error msg) ∧
    (0 < c.work_minutes → 0 < c.rest_minutes → c.tick < 5/100 →
      0 ≤ c.alpha → c.alpha ≤ 1 → 0 < c.scale → 0 ≤ c.pre_rest_warning →
      validate c = Except.ok { c with tick := 5/100 }) := by
  constructor
  · intro hbad
    by_cases hw : c.work_minutes ≤ 0
    · exact ⟨"工作时长必须为正数", by simp [validate, hw]⟩
    · have hr : c.rest_minutes ≤ 0 := by
        rcases hbad with h | h
        · exact absurd h hw
        · exact h
      exact ⟨"休息时长必须为正数", by simp [validate, hw, hr]⟩
  · intro hw hr ht ha1 ha2 hs hp
    have hw2 : ¬(c.work_minutes ≤ 0) := not_le.mpr hw
    have hr2 : ¬(c.rest_minutes ≤ 0) := not_le.mpr hr
    have hs2 : ¬(c.scale ≤ 0) := not_le.mpr hs
    have hp2 : ¬(c.pre_rest_warning < 0) := not_lt.mpr hp
    simp [validate, hw2, hr2, ht, ha1, ha2, hs2, hp2]

/-- Witness for C9: `work_minutes = 0` fails construction; `tick = 0.01`
is clamped to `0.05`. -/
theorem config_fail_fast_witness :
    (∃ msg, validate { work_minutes := 0 } = Except.error msg) ∧
    validate { tick := 1/100 } = Except.ok { tick := 5/100 } := by
  constructor
  · exact (config_fail_fast { work_minutes := 0 }).1 (Or.inl (by norm_num))
  · exact (config_fail_fast { tick := 1/100 }).2 (by norm_num) (by norm_num)
      (by norm_num) (by norm_num) (by norm_num) (by norm_num) (by norm_num)

/-- C10.  Control operations before the first phase-run are safe no-ops:
with `_state = None` every one of `pause`, `resume`, `stop`, `skip_phase`
returns without raising and leaves the timer unchanged, and `is_running`
is `false`. -/
theorem controls_noop_before_first_phase (now : ℚ) :
    pauseTimer none = none ∧ resumeTimer now none = none ∧
    stopTimer none = none ∧ skipTimer none = none ∧
    isRunningTimer none = false :=
  ⟨rfl, rfl, rfl, rfl, rfl⟩

/- ### Trace lemmas about the countdown loop and `_run_phase` -/

theorem mem_ite_singleton {e x : Event} {c : Bool}
    (h : e ∈ (if c then [x] else ([] : List Event))) : e = x := by
  cases c <;> simp_all

theorem applyControl_is_running (st : Step) (s : TimerState)
    (h : st.ctl ≠ Control.cstop) :
    (applyControl st s).is_running = s.is_running := by
  cases hc : st.ctl
  · simp [applyControl, hc]
  · simp [applyControl, hc, pauseState]
  · simp only [applyControl, hc, resumeState]
    split <;> rfl
  · exact absurd hc h
  · simp [applyControl, hc, skipState]

theorem pollStep_is_running (s : TimerState) (now : ℚ) :
    (pollStep s now).is_running = s.is_running := by
  unfold pollStep
  split <;> rfl

/-- The countdown loop itself fires only `tick` and `pre_rest_warning`
events. -/
theorem runLoop_events (cfg : PomodoroConfig) (ph : Phase) :
    ∀ (env : List Step) (s : TimerState) (sent : Bool) (lt : ℚ)
      (tr : List Event) (sf : TimerState) (er : List Step),
      runLoop cfg ph env s sent lt = some (tr, sf, er) →
      ∀ e ∈ tr, e = Event.tick ∨ e = Event.pre_rest_warning := by
  intro env
  induction env with
  | nil =>
    intro s sent lt tr sf er h
    simp [runLoop] at h
  | cons st rest ih =>
    intro s sent lt tr sf er h e he
    simp only [runLoop] at h
    split at h
    · split at h
      · exact ih _ _ _ _ _ _ h e he
      · split at h
        · exact absurd h (by simp)
        · rename_i tr2 sf2 er2 heq
          simp only [Option.some.injEq, Prod.mk.injEq] at h
          obtain ⟨htr, hsf, her⟩ := h
          subst htr
          rcases List.mem_append.mp he with h12 | h3
          · rcases List.mem_append.mp h12 with h1 | h2
            · exact Or.inr (mem_ite_singleton h1)
            · exact Or.inl (mem_ite_singleton h2)
          · exact ih _ _ _ _ _ _ heq e h3
    · simp only [Option.some.injEq, Prod.mk.injEq] at h
      obtain ⟨htr, hsf, her⟩ := h
      subst htr
      exact absurd he (List.not_mem_nil e)

/-- If no step of the environment carries an external `stop`, the loop
preserves `is_running`, and the unconsumed environment still carries no
`stop`. -/
theorem runLoop_preserves (cfg : PomodoroConfig) (ph : Phase) :
    ∀ (env : List Step) (s : TimerState) (sent : Bool) (lt : ℚ)
      (tr : List Event) (sf : TimerState) (er : List Step),
      runLoop cfg ph env s sent lt = some (tr, sf, er) →
      (∀ st ∈ env, st.ctl ≠ Control.cstop) →
      sf.is_running = s.is_running ∧ ∀ st ∈ er, st.ctl ≠ Control.cstop := by
  intro env
  induction env with
  | nil =>
    intro s sent lt tr sf er h hns
    simp [runLoop] at h
  | cons st rest ih =>
    intro s sent lt tr sf er h hns
    have hst : st.ctl ≠ Control.cstop := hns st (List.mem_cons_self st rest)
    have hrest : ∀ x ∈ rest, x.ctl ≠ Control.cstop :=
      fun x hx => hns x (List.mem_cons_of_mem st hx)
    simp only [runLoop] at h
    split at h
    · split at h
      · have hih := ih _ _ _ _ _ _ h hrest
        rw [applyControl_is_running st s hst] at hih
        exact hih
      · split at h
        · exact absurd h (by simp)
        · rename_i tr2 sf2 er2 heq
          simp only [Option.some.injEq, Prod.mk.injEq] at h
          obtain ⟨htr, hsf, her⟩ := h
          subst hsf
          subst her
          have hih := ih _ _ _ _ _ _ heq hrest
          rw [pollStep_is_running, applyControl_is_running st s hst] at hih
          exact hih
    · simp only [Option.some.injEq, Prod.mk.injEq] at h
      obtain ⟨htr, hsf, her⟩ := h
      subst hsf
      subst her
      exact ⟨applyControl_is_running st s hst, hrest⟩

/-- Every successful `_run_phase` trace is `phase_start` followed only by
`tick`, `pre_rest_warning` and `phase_end` events of that same run. -/
theorem runPhase_shape (cfg : PomodoroConfig) (ph : Phase) (cycle : ℤ)
    (env : List Step) (tr : List Event) (ok : Bool) (er : List Step)
    (h : runPhase cfg ph cycle env = some (tr, ok, er)) :
    ∃ mid, tr = Event.phase_start ph cycle :: mid ∧
      ∀ e ∈ mid, e = Event.tick ∨ e = Event.pre_rest_warning ∨
        e = Event.phase_end ph cycle := by
  cases env with
  | nil => simp [runPhase] at h
  | cons s0 env1 =>
    simp only [runPhase] at h
    split at h
    · split at h
      · exact absurd h (by simp)
      · simp only [Option.some.injEq, Prod.mk.injEq] at h
        obtain ⟨htr, hok, her⟩ := h
        subst htr
        refine ⟨[Event.phase_end ph cycle], rfl, ?_⟩
        intro e he
        simp only [List.mem_singleton] at he
        exact Or.inr (Or.inr he)
    · split at h
      · exact absurd h (by simp)
      · rename_i evs sf er2 heq
        simp only [Option.some.injEq, Prod.mk.injEq] at h
        obtain ⟨htr, hok, her⟩ := h
        subst htr
        refine ⟨evs ++ (if sf.is_running = true then [Event.phase_end ph cycle]
          else []), rfl, ?_⟩
        intro e he
        rcases List.mem_append.mp he with h1 | h2
        · rcases runLoop_events cfg ph env1 _ _ _ _ _ _ heq e h1 with h3 | h3
          · exact Or.inl h3
          · exact Or.inr (Or.inl h3)
        · exact Or.inr (Or.inr (mem_ite_singleton h2))

/-- If no step of the environment carries an external `stop`, a
terminating `_run_phase` reports `is_running = true` back to `start`, and
the unconsumed environment still carries no `stop`. -/
theorem runPhase_preserves (cfg : PomodoroConfig) (ph : Phase) (cycle : ℤ)
    (env : List Step) (tr : List Event) (ok : Bool) (er : List Step)
    (h : runPhase cfg ph cycle env = some (tr, ok, er))
    (hns : ∀ st ∈ env, st.ctl ≠ Control.cstop) :
    ok = true ∧ ∀ st ∈ er, st.ctl ≠ Control.cstop := by
  cases env with
  | nil => simp [runPhase] at h
  | cons s0 env1 =>
    have hrest : ∀ x ∈ env1, x.ctl ≠ Control.cstop :=
      fun x hx => hns x (List.mem_cons_of_mem s0 hx)
    simp only [runPhase] at h
    split at h
    · split at h
      · exact absurd h (by simp)
      · rename_i s1 env2
        simp only [Option.some.injEq, Prod.mk.injEq] at h
        obtain ⟨htr, hok, her⟩ := h
        subst hok
        subst her
        have hs1 : s1.ctl ≠ Control.cstop :=
          hrest s1 (List.mem_cons_self s1 env2)
        constructor
        · exact applyControl_is_running s1 _ hs1
        · exact fun x hx => hrest x (List.mem_cons_of_mem s1 hx)
    · split at h
      · exact absurd h (by simp)
      · rename_i evs sf er2 heq
        simp only [Option.some.injEq, Prod.mk.injEq] at h
        obtain ⟨htr, hok, her⟩ := h
        subst hok
        subst her
        have hp := runLoop_preserves cfg ph env1 _ _ _ _ _ _ heq hrest
        exact ⟨hp.1, hp.2⟩

/- ### C5: suppression of `phase_end` on external stop -/

/-- C5 (amended).  For every phase-run that goes through the main
countdown loop (`total_seconds > 2`) and is cut short by an external stop
(`is_running` false at loop exit), the `phase_end` event of that run — in
fact any `phase_end` event — is absent from the run's trace.  (In the
degenerate short-duration path `total_seconds ≤ 2` the code fires
`phase_end` unconditionally, see the counterexample.) -/
theorem stop_suppresses_phase_end (cfg : PomodoroConfig) (ph : Phase)
    (cycle : ℤ) (env : List Step) (tr : List Event) (ok : Bool) (er : List Step)
    (hlong : 2 < totalSeconds cfg ph)
    (h : runPhase cfg ph cycle env = some (tr, ok, er))
    (hstop : ok = false) :
    Event.phase_end ph cycle ∉ tr := by
  cases env with
  | nil => simp [runPhase] at h
  | cons s0 env1 =>
    simp only [runPhase] at h
    split at h
    · rename_i hle
      exact absurd hle (by omega)
    · split at h
      · exact absurd h (by simp)
      · rename_i evs sf er2 heq
        simp only [Option.some.injEq, Prod.mk.injEq] at h
        obtain ⟨htr, hok, her⟩ := h
        subst htr
        subst hok
        intro hmem
        rw [List.mem_cons] at hmem
        rcases hmem with h1 | h1
        · simp at h1
        · rw [hstop] at h1
          simp only [Bool.false_eq_true, if_false, List.append_nil] at h1
          rcases runLoop_events cfg ph env1 _ _ _ _ _ _ heq _ h1 with h2 | h2 <;>
            simp at h2

/-- A zero-time environment step with no control action. -/
def stepNone : Step :=
  { time := 0, ctl := Control.cnone }

/-- A zero-time environment step carrying an external `stop()` (or
SIGINT). -/
def stepStop : Step :=
  { time := 0, ctl := Control.cstop }

/-- A configuration whose WORK phase lasts 1 second (`0.0166… min`), the
degenerate short-duration path, with a cycle limit of 1. -/
def cfgShort : PomodoroConfig :=
  { work_minutes := 1/60, rest_minutes := 1/60, cycles := some 1 }

/-- A configuration whose WORK phase lasts 60 seconds, the main-loop
path. -/
def cfgMain : PomodoroConfig :=
  { work_minutes := 1 }

/-- The `TimerState` built at entry of `cfgShort`'s WORK phase-run. -/
def initShort : TimerState :=
  { phase := Phase.WORK, cycle := 1, remaining_seconds := 1,
    total_seconds := 1, start_time := 0 }

theorem cfgShort_total : totalSeconds cfgShort Phase.WORK = 1 := by
  rw [totalSeconds, pyInt]
  norm_num [cfgShort]

theorem cfgMain_total : totalSeconds cfgMain Phase.WORK = 60 := by
  rw [totalSeconds, pyInt]
  norm_num [cfgMain]

theorem runPhase_short_stop :
    runPhase cfgShort Phase.WORK 1 [stepNone, stepStop]
      = some ([Event.phase_start Phase.WORK 1, Event.phase_end Phase.WORK 1],
          false, []) := by
  simp only [runPhase, cfgShort_total]
  norm_num [stepNone, stepStop, applyControl, stopState]

theorem runPhase_main_stop :
    runPhase cfgMain Phase.WORK 1 [stepNone, stepStop]
      = some ([Event.phase_start Phase.WORK 1], false, []) := by
  simp only [runPhase, cfgMain_total]
  norm_num [runLoop, stepNone, stepStop, applyControl, stopState]

/-- C5 counterexample: in the short-duration path a `stop()` that lands
during the sleep sets `is_running = false` while `remaining_seconds` is
still `1 > 0` — the run is cut short by an external stop — yet the run's
trace still contains its `phase_end` event, contradicting the claimed
suppression for every configured duration. -/
theorem stop_short_path_still_fires_phase_end :
    (applyControl stepStop initShort).is_running = false ∧
    initShort.remaining_seconds = 1 ∧
    runPhase cfgShort Phase.WORK 1 [stepNone, stepStop]
      = some ([Event.phase_start Phase.WORK 1, Event.phase_end Phase.WORK 1],
          false, []) ∧
    Event.phase_end Phase.WORK 1
      ∈ [Event.phase_start Phase.WORK 1, Event.phase_end Phase.WORK 1] := by
  refine ⟨?_, rfl, runPhase_short_stop, ?_⟩
  · simp [applyControl, stepStop, stopState]
  · simp

/-- Witness for the amended C5 on a concrete 60-second run stopped at the
first loop iteration. -/
theorem stop_suppresses_phase_end_witness :
    Event.phase_end Phase.WORK 1 ∉ [Event.phase_start Phase.WORK 1] :=
  stop_suppresses_phase_end cfgMain Phase.WORK 1 [stepNone, stepStop] _ false []
    (by rw [cfgMain_total]; norm_num) runPhase_main_stop rfl

/- ### Counting events in a run's trace: C3 and C4 -/

/-- Recogniser for `phase_start` events of a given phase. -/
def isPhaseStart (p : Phase) : Event → Bool
  | Event.phase_start q _ => decide (q = p)
  | _ => false

/-- Recogniser for the `timer_complete` event. -/
def isComplete : Event → Bool
  | Event.timer_complete => true
  | _ => false

/-- Every `_run_phase` trace holds exactly one `phase_start` (of its own
phase), no `phase_start` of the other phase, and no `timer_complete`. -/
theorem runPhase_counts (cfg : PomodoroConfig) (ph : Phase) (cycle : ℤ)
    (env : List Step) (tr : List Event) (ok : Bool) (er : List Step)
    (h : runPhase cfg ph cycle env = some (tr, ok, er)) :
    (∀ p, List.countP (isPhaseStart p) tr = if ph = p then 1 else 0) ∧
    List.countP isComplete tr = 0 := by
  obtain ⟨mid, htr, hmid⟩ := runPhase_shape cfg ph cycle env tr ok er h
  subst htr
  have hmid0 : ∀ p, List.countP (isPhaseStart p) mid = 0 := by
    intro p
    rw [List.countP_eq_zero]
    intro e he
    rcases hmid e he with h1 | h1 | h1 <;> subst h1 <;> simp [isPhaseStart]
  have hmidc : List.countP isComplete mid = 0 := by
    rw [List.countP_eq_zero]
    intro e he
    rcases hmid e he with h1 | h1 | h1 <;> subst h1 <;> simp [isComplete]
  constructor
  · intro p
    rw [List.countP_cons, hmid0 p]
    by_cases hp : ph = p
    · subst hp
      simp [isPhaseStart]
    · simp [isPhaseStart, hp]
  · rw [List.countP_cons, hmidc]
    simp [isComplete]

/-- The cycle loop of `start` never fires `timer_complete` itself. -/
theorem startLoop_no_complete (cfg : PomodoroConfig) :
    ∀ (fuel : ℕ) (cycle : ℤ) (env : List Step) (tr : List Event) (er : List Step),
      startLoop cfg fuel cycle env = some (tr, er) →
      List.countP isComplete tr = 0 := by
  intro fuel
  induction fuel with
  | zero =>
    intro cycle env tr er h
    simp [startLoop] at h
  | succ n ih =>
    intro cycle env tr er h
    simp only [startLoop] at h
    split at h
    · exact absurd h (by simp)
    · rename_i tr1 ok1 env1 heq1
      have h1 := (runPhase_counts cfg Phase.WORK cycle env tr1 ok1 env1 heq1).2
      split at h
      · simp only [Option.some.injEq, Prod.mk.injEq] at h
        obtain ⟨htr, her⟩ := h
        subst htr
        exact h1
      · split at h
        · simp only [Option.some.injEq, Prod.mk.injEq] at h
          obtain ⟨htr, her⟩ := h
          subst htr
          exact h1
        · split at h
          · exact absurd h (by simp)
          · rename_i tr2 ok2 env2 heq2
            have h2 := (runPhase_counts cfg Phase.REST cycle env1 tr2 ok2 env2 heq2).2
            split at h
            · simp only [Option.some.injEq, Prod.mk.injEq] at h
              obtain ⟨htr, her⟩ := h
              subst htr
              rw [List.countP_append, h1, h2]
            · split at h
              · exact absurd h (by simp)
              · rename_i tr3 env3 heq3
                have h3 := ih _ _ _ _ heq3
                simp only [Option.some.injEq, Prod.mk.injEq] at h
                obtain ⟨htr, her⟩ := h
                subst htr
                rw [List.countP_append, List.countP_append, h1, h2, h3]

/-- C3.  For every terminating engine run of `start()`, the
`timer_complete` event appears exactly once in the run's trace, and it is
the very last event — no `phase_start`, `tick`, `pre_rest_warning` or
`phase_end` fires after it — whether the run ended by exhausting the cycle
limit or by an external stop/interrupt. -/
theorem timer_complete_once_last (cfg : PomodoroConfig) (fuel : ℕ)
    (env : List Step) (tr : List Event)
    (h : start cfg fuel env = some tr) :
    List.countP isComplete tr = 1 ∧ tr.getLast? = some Event.timer_complete := by
  simp only [start] at h
  split at h
  · exact absurd h (by simp)
  · rename_i tr0 er heq
    simp only [Option.some.injEq] at h
    subst h
    have h0 := startLoop_no_complete cfg fuel 1 env tr0 er heq
    constructor
    · rw [List.countP_append, h0]
      simp [isComplete]
    · exact List.getLast?_concat tr0

/-- When no step of the environment carries an external stop and the
cycle limit `N` lies ahead of the current cycle, the rest of the cycle
loop fires `N - cycle + 1` WORK `phase_start`s and `N - cycle` REST
`phase_start`s. -/
theorem startLoop_count (cfg : PomodoroConfig) (N : ℤ) (hN : cfg.cycles = some N) :
    ∀ (fuel : ℕ) (cycle : ℤ) (env : List Step) (tr : List Event) (er : List Step),
      1 ≤ cycle → cycle ≤ N →
      (∀ st ∈ env, st.ctl ≠ Control.cstop) →
      startLoop cfg fuel cycle env = some (tr, er) →
      (List.countP (isPhaseStart Phase.WORK) tr : ℤ) = N - cycle + 1 ∧
      (List.countP (isPhaseStart Phase.REST) tr : ℤ) = N - cycle := by
  intro fuel
  induction fuel with
  | zero =>
    intro cycle env tr er h1 h2 hns h
    simp [startLoop] at h
  | succ n ih =>
    intro cycle env tr er h1 h2 hns h
    simp only [startLoop] at h
    split at h
    · exact absurd h (by simp)
    · rename_i tr1 ok1 env1 heq1
      have hpre1 := runPhase_preserves cfg Phase.WORK cycle env tr1 ok1 env1 heq1 hns
      have hcnt1 := (runPhase_counts cfg Phase.WORK cycle env tr1 ok1 env1 heq1).1
      have e1W : (List.countP (isPhaseStart Phase.WORK) tr1 : ℤ) = 1 := by
        rw [hcnt1 Phase.WORK]
        simp
      have e1R : (List.countP (isPhaseStart Phase.REST) tr1 : ℤ) = 0 := by
        rw [hcnt1 Phase.REST]
        simp
      split at h
      · rename_i hfalse
        simp [hpre1.1] at hfalse
      · split at h
        · rename_i hreach
          simp only [cyclesReached, hN, decide_eq_true_eq] at hreach
          have hceq : cycle = N := le_antisymm h2 hreach.2
          simp only [Option.some.injEq, Prod.mk.injEq] at h
          obtain ⟨htr, her⟩ := h
          subst htr
          subst hceq
          constructor
          · rw [e1W]
            omega
          · rw [e1R]
            omega
        · rename_i hreach
          simp only [cyclesReached, hN, decide_eq_true_eq] at hreach
          have hlt : cycle < N := by omega
          split at h
          · exact absurd h (by simp)
          · rename_i tr2 ok2 env2 heq2
            have hpre2 := runPhase_preserves cfg Phase.REST cycle env1 tr2 ok2 env2
              heq2 hpre1.2
            have hcnt2 := (runPhase_counts cfg Phase.REST cycle env1 tr2 ok2 env2
              heq2).1
            have e2W : (List.countP (isPhaseStart Phase.WORK) tr2 : ℤ) = 0 := by
              rw [hcnt2 Phase.WORK]
              simp
            have e2R : (List.countP (isPhaseStart Phase.REST) tr2 : ℤ) = 1 := by
              rw [hcnt2 Phase.REST]
              simp
            split at h
            · rename_i hfalse
              simp [hpre2.1] at hfalse
            · split at h
              · exact absurd h (by simp)
              · rename_i tr3 env3 heq3
                have hih := ih (cycle + 1) env2 tr3 env3 (by omega) (by omega)
                  hpre2.2 heq3
                simp only [Option.some.injEq, Prod.mk.injEq] at h
                obtain ⟨htr, her⟩ := h
                subst htr
                constructor
                · simp only [List.countP_append, Nat.cast_add]
                  rw [e1W, e2W]
                  have := hih.1
                  omega
                · simp only [List.countP_append, Nat.cast_add]
                  rw [e1R, e2R]
                  have := hih.2
                  omega

/-- C4.  Cycle accounting under a configured limit: with `cycles = N ≥ 1`
and a run of `start()` whose environment carries no external stop, a
terminating run fires exactly `N` WORK `phase_start` events and exactly
`N - 1` REST `phase_start` events (the loop ends right after the `N`-th
WORK phase-run, with no trailing REST phase-run). -/
theorem cycle_accounting (cfg : PomodoroConfig) (N : ℤ) (fuel : ℕ)
    (env : List Step) (tr : List Event)
    (hN : cfg.cycles = some N) (hN1 : 1 ≤ N)
    (hns : ∀ st ∈ env, st.ctl ≠ Control.cstop)
    (h : start cfg fuel env = some tr) :
    (List.countP (isPhaseStart Phase.WORK) tr : ℤ) = N ∧
    (List.countP (isPhaseStart Phase.REST) tr : ℤ) = N - 1 := by
  simp only [start] at h
  split at h
  · exact absurd h (by simp)
  · rename_i tr0 er heq
    simp only [Option.some.injEq] at h
    subst h
    have hc := startLoop_count cfg N hN fuel 1 env tr0 er le_rfl hN1 hns heq
    have htc : ∀ p, List.countP (isPhaseStart p) [Event.timer_complete] = 0 := by
      intro p
      simp [isPhaseStart]
    constructor
    · simp only [List.countP_append, Nat.cast_add, htc Phase.WORK]
      have := hc.1
      omega
    · simp only [List.countP_append, Nat.cast_add, htc Phase.REST]
      have := hc.2
      omega

theorem runPhase_short_ok :
    runPhase cfgShort Phase.WORK 1 [stepNone, stepNone]
      = some ([Event.phase_start Phase.WORK 1, Event.phase_end Phase.WORK 1],
          true, []) := by
  simp only [runPhase, cfgShort_total]
  norm_num [stepNone, applyControl]

theorem start_short_eval :
    start cfgShort 1 [stepNone, stepNone]
      = some [Event.phase_start Phase.WORK 1, Event.phase_end Phase.WORK 1,
          Event.timer_complete] := by
  have hcr : cyclesReached cfgShort 1 = true := by
    simp [cyclesReached, cfgShort]
  simp [start, startLoop, runPhase_short_ok, hcr]

/-- Witness for C3 on a concrete one-cycle run. -/
theorem timer_complete_once_last_witness :
    List.countP isComplete [Event.phase_start Phase.WORK 1,
      Event.phase_end Phase.WORK 1, Event.timer_complete] = 1 ∧
    ([Event.phase_start Phase.WORK 1, Event.phase_end Phase.WORK 1,
      Event.timer_complete] : List Event).getLast?
      = some Event.timer_complete :=
  timer_complete_once_last cfgShort 1 [stepNone, stepNone] _ start_short_eval

/-- Witness for C4 on a concrete `cycles = 1` run: one WORK
`phase_start`, zero REST `phase_start`s. -/
theorem cycle_accounting_witness :
    (List.countP (isPhaseStart Phase.WORK) [Event.phase_start Phase.WORK 1,
        Event.phase_end Phase.WORK 1, Event.timer_complete] : ℤ) = 1 ∧
    (List.countP (isPhaseStart Phase.REST) [Event.phase_start Phase.WORK 1,
        Event.phase_end Phase.WORK 1, Event.timer_complete] : ℤ) = 1 - 1 :=
  cycle_accounting cfgShort 1 1 [stepNone, stepNone] _ rfl (by norm_num)
    (by simp [stepNone]) start_short_eval

end TomatoClock
